import Mathlib

/-!
Verification of the eip1193-accounts-provider middleware.

The development shallowly embeds the two source variants of
`extendProviderWithAccounts`:

  * `src/src/index.ts`   — the client-mediated variant (viem wallet client,
    lazy chain-client cache, strict-validation option, caller handler
    overrides);
  * `src/unnamed/part_000` — the raw-send variant (`parseTxParams`,
    `eth_sendRawTransaction`, `tevmPendingCount` compatibility fix).

Hex-string JSON-RPC fields are modelled as `Option String` (absent =
`none`), JavaScript truthiness of such a field is `truthy`, `BigInt` /
`parseInt(x, 16)` on a `0x`-hex string is `hexToNat`, and JavaScript
object spread is `spreadMerge`.  External collaborators (the signing
capability, the underlying transport, the impersonation authority) are
kept abstract through the `Env` record, and every externally visible
call made by a handler is recorded in an `ExtCall` trace.
-/

namespace EIP1193Accounts

/-- JavaScript truthiness of an optional hex-string field: `undefined`
and the empty string are falsy, every other string is truthy. -/
def truthy (field : Option String) : Bool :=
  match field with
  | some s => s != ""
  | none => false

/-- Value of one hexadecimal digit; non-digits give 0 (inputs are valid
hex strings, so this case is never exercised by the claims). -/
def hexDigitValue (c : Char) : Nat :=
  if '0' ≤ c ∧ c ≤ '9' then c.toNat - 48
  else if 'a' ≤ c ∧ c ≤ 'f' then c.toNat - 87
  else if 'A' ≤ c ∧ c ≤ 'F' then c.toNat - 55
  else 0

/-- Decoding of a `0x`-prefixed hex string as a natural number, the
model of JavaScript `BigInt(s)`, `Number(s)` and `parseInt(s, 16)` on
the wire-format fields. -/
def hexToNat (s : String) : Nat :=
  ((s.drop 2).toList).foldl (fun acc c => acc * 16 + hexDigitValue c) 0

/-- The `x ? BigInt(x) : undefined` / `if (x) params.y = BigInt(x)`
pattern applied to an optional hex-string field. -/
def decodeHexField (field : Option String) : Option Nat :=
  match field with
  | some s => if s == "" then none else some (hexToNat s)
  | none => none

/-- Wire-format transaction request (`EIP1193TransactionData`): all
fields optional hex strings.  `accessList` is an opaque passthrough
payload, modelled as a string token.  The TypeScript fields `from` and `to` collide
with Lean tokens, hence the guillemet quoting. -/
structure RawTx where
  «from» : Option String := none
  «to» : Option String := none
  data : Option String := none
  gas : Option String := none
  nonce : Option String := none
  chainId : Option String := none
  value : Option String := none
  type : Option String := none
  gasPrice : Option String := none
  maxFeePerGas : Option String := none
  maxPriorityFeePerGas : Option String := none
  accessList : Option String := none
  deriving DecidableEq, Repr

/-- viem transaction type tags produced by the two normalizers. -/
inductive TxFormat where
  | eip2930
  | eip1559
  | legacy
  deriving DecidableEq, Repr

/-- Normalized transaction produced by `toViemTransaction` in
`src/src/index.ts` (the `Omit<SendTransactionParameters, ...>` value). -/
structure ViemTx where
  type : TxFormat
  «to» : Option String := none
  nonce : Option Nat := none
  gas : Option Nat := none
  gasPrice : Option Nat := none
  maxFeePerGas : Option Nat := none
  maxPriorityFeePerGas : Option Nat := none
  data : Option String := none
  accessList : Option String := none
  value : Option Nat := none
  deriving DecidableEq, Repr

/-- `toViemTransaction` from `src/src/index.ts` lines 129-172.  The
legacy default (`type` absent or `0x0`) is represented with the
access-list shape, exactly as in the source; an unrecognized `type`
throws `tx type ... not implemented`. -/
def toViemTransaction (tx : RawTx) : Except String ViemTx :=
  if tx.type = some "0x1" then
    Except.ok
      { type := TxFormat.eip2930
        «to» := tx.«to»
        nonce := decodeHexField tx.nonce
        gas := decodeHexField tx.gas
        gasPrice := decodeHexField tx.gasPrice
        data := tx.data
        accessList := tx.accessList
        value := decodeHexField tx.value }
  else if tx.type = some "0x2" then
    Except.ok
      { type := TxFormat.eip1559
        «to» := tx.«to»
        nonce := decodeHexField tx.nonce
        gas := decodeHexField tx.gas
        maxFeePerGas := decodeHexField tx.maxFeePerGas
        maxPriorityFeePerGas := decodeHexField tx.maxPriorityFeePerGas
        data := tx.data
        accessList := tx.accessList
        value := decodeHexField tx.value }
  else if truthy tx.type = false ∨ tx.type = some "0x0" then
    Except.ok
      { type := TxFormat.eip2930
        «to» := tx.«to»
        nonce := decodeHexField tx.nonce
        gas := decodeHexField tx.gas
        gasPrice := decodeHexField tx.gasPrice
        data := tx.data
        value := decodeHexField tx.value }
  else
    Except.error ("tx type " ++ tx.type.getD "" ++ " not implemented")

/-- Normalized transaction produced by `parseTxParams` in
`src/unnamed/part_000` (a plain object; `type` is always set, `value`
is never set by the normalizer itself). -/
structure ParsedTx where
  type : TxFormat
  «to» : Option String := none
  data : Option String := none
  gas : Option Nat := none
  nonce : Option Nat := none
  chainId : Option Nat := none
  accessList : Option String := none
  gasPrice : Option Nat := none
  maxFeePerGas : Option Nat := none
  maxPriorityFeePerGas : Option Nat := none
  value : Option Nat := none
  deriving DecidableEq, Repr

/-- `parseTxParams` from `src/unnamed/part_000` lines 35-55.  Note that
no branch assigns `value`: the output `value` is always `none`.  The
handler `eth_sendTransaction` of that variant signs exactly this value
(line 95), while `eth_signTransaction` (line 146) patches `value` in
afterwards. -/
def parseTxParams (tx : RawTx) : ParsedTx :=
  let base : ParsedTx :=
    { type := TxFormat.legacy
      «to» := if truthy tx.«to» then tx.«to» else none
      data := if truthy tx.data then tx.data else none
      gas := decodeHexField tx.gas
      nonce := decodeHexField tx.nonce
      chainId := decodeHexField tx.chainId
      accessList := if truthy tx.accessList then tx.accessList else none }
  if tx.type = some "0x1" then
    { base with type := TxFormat.eip2930, gasPrice := decodeHexField tx.gasPrice }
  else if tx.type = some "0x2" then
    { base with
        type := TxFormat.eip1559
        maxFeePerGas := decodeHexField tx.maxFeePerGas
        maxPriorityFeePerGas := decodeHexField tx.maxPriorityFeePerGas }
  else
    { base with type := TxFormat.legacy, gasPrice := decodeHexField tx.gasPrice }

/-- `errors.join(', ')`. -/
def joinComma : List String → String
  | [] => ""
  | [x] => x
  | x :: rest => x ++ ", " ++ joinComma rest

/-- `validateTransaction` from `src/src/index.ts` lines 98-116, returned
as the accumulated list of missing field names (`errors`); the source
throws `Missing mandatory fields: errors.join(', ')` when nonempty.
`from`, `gas`, `nonce` are checked by truthiness (`!tx.from`), the fee
fields by presence (`!== undefined`). -/
def validateTransaction (tx : RawTx) : List String :=
  (if truthy tx.«from» then [] else ["from"]) ++
  (if truthy tx.gas then [] else ["gas"]) ++
  (if truthy tx.nonce then [] else ["nonce"]) ++
  (if tx.type = some "0x2" then
    (if tx.maxFeePerGas ≠ none then [] else ["maxFeePerGas"]) ++
    (if tx.maxPriorityFeePerGas ≠ none then [] else ["maxPriorityFeePerGas"])
  else
    (if tx.gasPrice ≠ none then [] else ["gasPrice"]))

example : validateTransaction { «from» := some "0xa", gas := some "0x1" } =
    ["nonce", "gasPrice"] := by decide

example : parseTxParams { value := some "0x2a", type := some "0x0" } =
    { type := TxFormat.legacy } := by decide

example : toViemTransaction { type := some "0x9" } =
    Except.error "tx type 0x9 not implemented" := rfl

/-- JavaScript `toLowerCase()` on an address string: ASCII letters are
lowered, other characters (digits, the `x` of the prefix) unchanged. -/
def toLowerCase (s : String) : String :=
  String.mk (s.toList.map (fun c =>
    if 'A' ≤ c ∧ c ≤ 'Z' then Char.ofNat (c.toNat + 32) else c))

/-- A locally controlled signing identity; the signing capability itself
is external, so only the derived address matters to the middleware. -/
structure LocalAccount where
  address : String
  deriving DecidableEq, Repr

/-- Impersonation configuration: the mode tag, carrying the allow-list
in `list` mode.  The impersonation authority capability is part of the
external environment. -/
inductive ImpMode where
  | always
  | unknown
  | list (addresses : List String)
  deriving DecidableEq, Repr

/-- The options relevant to the send path of `src/src/index.ts`
(`ProviderOptions` without the key material and handler overrides,
which are modelled separately). -/
structure ProviderOptions where
  impersonate : Option ImpMode := none
  doNotFillMissingFields : Bool := false

/-- Account lookup used by `eth_sendTransaction` in `src/src/index.ts`
line 181: case-insensitive comparison via `toLowerCase()`. -/
def findAccountForTx (accounts : List LocalAccount) (fromAddress : String) :
    Option LocalAccount :=
  accounts.find? (fun a => toLowerCase a.address == toLowerCase fromAddress)

/-- Account lookup used by `personal_sign`, `eth_sign`,
`eth_signTypedData` and `eth_signTypedData_v4` in `src/src/index.ts`
lines 214, 223, 240, 248: exact (case-sensitive) string comparison. -/
def findAccountForSigning (accounts : List LocalAccount) (address : String) :
    Option LocalAccount :=
  accounts.find? (fun a => a.address == address)

/-- `shouldImpersonate` from `src/src/index.ts` lines 118-127.  Mode
`unknown` compares case-insensitively; mode `list` uses
`list.includes(address)`, an exact string membership test. -/
def shouldImpersonate (imp : Option ImpMode) (accounts : List LocalAccount)
    (address : String) : Bool :=
  match imp with
  | some ImpMode.always => true
  | some ImpMode.unknown =>
    !(accounts.any (fun a => toLowerCase a.address == toLowerCase address))
  | some (ImpMode.list l) => l.contains address
  | none => false

/-- Results of the external collaborators: the wallet client's
`sendTransaction` (returns a hash) and the underlying transport's
response to a re-issued `eth_sendTransaction`. -/
structure Env where
  walletSendHash : ViemTx → String → String
  transportSendResult : RawTx → String

/-- Externally visible calls made while handling a request. -/
inductive ExtCall where
  | chainIdLookup
  | walletSend (tx : ViemTx) (accountAddress : String)
  | impersonateAccount (address : String)
  | transportSendTransaction (tx : RawTx)
  deriving DecidableEq, Repr

/-- Outcome of a handler: resolved value or thrown error message. -/
inductive HandlerResult where
  | ok (value : String)
  | error (message : String)
  deriving DecidableEq, Repr

/-- The `else if (impersonate) ... else throw` tail of
`eth_sendTransaction` (`src/src/index.ts` lines 189-204): impersonate
and re-issue the original request when eligible, otherwise throw one of
the two distinct unavailability errors. -/
def impersonationBranch (imp : Option ImpMode) (accounts : List LocalAccount)
    (env : Env) (tx : RawTx) (fromAddress : String) :
    HandlerResult × List ExtCall :=
  match imp with
  | some _ =>
    if shouldImpersonate imp accounts fromAddress then
      (HandlerResult.ok (env.transportSendResult tx),
       [ExtCall.impersonateAccount fromAddress, ExtCall.transportSendTransaction tx])
    else
      (HandlerResult.error "Account not available, not even as impersonation", [])
  | none => (HandlerResult.error "Account not available", [])

/-- `accountHandlers.eth_sendTransaction` from `src/src/index.ts` lines
175-205.  `clientsCached` is the state of the lazy client cache at entry
(`await getClients()` performs an `eth_chainId` lookup exactly when the
cache is empty).  The result pairs the handler outcome with the trace of
external calls in execution order. -/
def eth_sendTransaction (opts : ProviderOptions) (accounts : List LocalAccount)
    (env : Env) (clientsCached : Bool) (tx : RawTx) :
    HandlerResult × List ExtCall :=
  if opts.doNotFillMissingFields = true ∧ validateTransaction tx ≠ [] then
    (HandlerResult.error ("Missing mandatory fields: " ++ joinComma (validateTransaction tx)), [])
  else
    match toViemTransaction tx with
    | Except.error msg => (HandlerResult.error msg, [])
    | Except.ok viemTx =>
      let fromAddress := tx.«from».getD ""
      let clientCalls : List ExtCall :=
        if clientsCached then [] else [ExtCall.chainIdLookup]
      let branch : HandlerResult × List ExtCall :=
        match findAccountForTx accounts fromAddress with
        | some account =>
          if opts.impersonate = some ImpMode.always then
            impersonationBranch opts.impersonate accounts env tx fromAddress
          else
            (HandlerResult.ok (env.walletSendHash viemTx account.address),
             [ExtCall.walletSend viemTx account.address])
        | none => impersonationBranch opts.impersonate accounts env tx fromAddress
      (branch.1, clientCalls ++ branch.2)

/-- Number of impersonation-authority calls in a trace. -/
def countImpersonations (calls : List ExtCall) : Nat :=
  (calls.filter (fun c => match c with
    | ExtCall.impersonateAccount _ => true
    | _ => false)).length

/-- Number of calls that submit the transaction (local wallet broadcast
or re-issued `eth_sendTransaction`) in a trace. -/
def countTransactionSubmissions (calls : List ExtCall) : Nat :=
  (calls.filter (fun c => match c with
    | ExtCall.walletSend _ _ => true
    | ExtCall.transportSendTransaction _ => true
    | _ => false)).length

/-- `accountsProvided.numAccounts || 10` (`src/src/index.ts` line 87):
JavaScript `||` treats both `undefined` and `0` as falsy. -/
def numDerived (numAccounts : Option Nat) : Nat :=
  match numAccounts with
  | some n => if n = 0 then 10 else n
  | none => 10

/-- The mnemonic branch of the registry construction (`src/src/index.ts`
lines 86-95): derive `numDerived` accounts at indices 0, 1, ....  The
HD-derivation primitive `mnemonicToAccount` is external and passed in as
`derive`. -/
def deriveMnemonicAccounts (derive : String → Nat → LocalAccount)
    (mnemonic : String) (numAccounts : Option Nat) : List LocalAccount :=
  (List.range (numDerived numAccounts)).map (fun i => derive mnemonic i)

/-- `eth_accounts` / `eth_requestAccounts` handler: the registry's
addresses in registry order (`src/src/index.ts` lines 206-211). -/
def eth_accounts (accounts : List LocalAccount) : List String :=
  accounts.map (fun a => a.address)

/-- Tag identifying which layer a handler entry came from. -/
inductive HTag where
  | builtin (methodName : String)
  | fix (methodName : String)
  | override (methodName : String)
  deriving DecidableEq, Repr

/-- The method names of the built-in `accountHandlers` object (both
source variants define the same eight names). -/
def accountHandlerNames : List String :=
  ["eth_sendTransaction", "eth_accounts", "eth_requestAccounts",
   "personal_sign", "eth_sign", "eth_signTransaction",
   "eth_signTypedData", "eth_signTypedData_v4"]

/-- The built-in `accountHandlers` table as a method-name keyed map. -/
def accountHandlerTable : String → Option HTag :=
  fun m => if m ∈ accountHandlerNames then some (HTag.builtin m) else none

/-- The `tevmPendingCountFix` table from `src/unnamed/part_000` lines
167-178: defined only when the fix is enabled, claiming exactly
`eth_getTransactionCount`. -/
def tevmPendingCountFixTable (enabled : Bool) : String → Option HTag :=
  fun m =>
    if enabled ∧ m = "eth_getTransactionCount" then some (HTag.fix m) else none

/-- JavaScript object spread `{...first, ...second}` on string-keyed
handler maps: a key present in `second` wins. -/
def spreadMerge (first second : String → Option HTag) : String → Option HTag :=
  fun m =>
    match second m with
    | some h => some h
    | none => first m

/-- The merged table of `src/unnamed/part_000` lines 180-183:
`{...tevmPendingCountFix, ...accountHandlers}`. -/
def handlersPart000 (fixEnabled : Bool) : String → Option HTag :=
  spreadMerge (tevmPendingCountFixTable fixEnabled) accountHandlerTable

/-- The merged table of `src/src/index.ts` lines 256-259:
`{...accountHandlers, ...options?.handlers}`. -/
def handlersIndex (overrides : String → Option HTag) : String → Option HTag :=
  spreadMerge accountHandlerTable overrides

/-- What the returned `request` function does with a method name
(`src/src/index.ts` lines 260-272): run the table entry when present,
otherwise forward to the underlying transport. -/
inductive DispatchAction where
  | runHandler (h : HTag)
  | forwardToTransport (methodName : String)
  deriving DecidableEq, Repr

/-- Dispatch of an inbound request against an assembled handler table. -/
def dispatch (table : String → Option HTag) (methodName : String) :
    DispatchAction :=
  match table methodName with
  | some h => DispatchAction.runHandler h
  | none => DispatchAction.forwardToTransport methodName

/-- Progress of one asynchronous `getClients()` invocation
(`src/src/index.ts` lines 46-75).  `start` is before the `if (clients)`
check; `fetching` is suspended at `await provider.request(eth_chainId)`
after having observed an empty cache; `done c` has returned client `c`. -/
inductive ClientPhase where
  | start
  | fetching
  | done (clientId : Nat)
  deriving DecidableEq, Repr

/-- Shared state of the lazy client cache together with the phases of
two concurrent `getClients()` invocations and instrumentation counters:
`chainIdCalls` counts `eth_chainId` transport requests, `clientsBuilt`
counts client constructions (each construction gets a fresh id). -/
structure ClientCacheState where
  cache : Option Nat
  chainIdCalls : Nat
  clientsBuilt : Nat
  taskA : ClientPhase
  taskB : ClientPhase
  deriving DecidableEq, Repr

/-- Both invocations pending on an empty cache. -/
def initialCacheState : ClientCacheState :=
  { cache := none, chainIdCalls := 0, clientsBuilt := 0,
    taskA := ClientPhase.start, taskB := ClientPhase.start }

/-- Replace the phase of the selected task. -/
def setPhase (s : ClientCacheState) (useB : Bool) (p : ClientPhase) :
    ClientCacheState :=
  if useB then { s with taskB := p } else { s with taskA := p }

/-- One scheduler step of the selected task, following `getClients()`
literally: from `start`, return the cached client if present, otherwise
issue the `eth_chainId` request and suspend; from `fetching`, build a
fresh client, store it in the cache and return it.  There is no guard
between the cache check and the cache write. -/
def stepTask (s : ClientCacheState) (useB : Bool) : ClientCacheState :=
  match (if useB then s.taskB else s.taskA) with
  | ClientPhase.done _ => s
  | ClientPhase.start =>
    match s.cache with
    | some c => setPhase s useB (ClientPhase.done c)
    | none =>
      { setPhase s useB ClientPhase.fetching with
          chainIdCalls := s.chainIdCalls + 1 }
  | ClientPhase.fetching =>
    { setPhase s useB (ClientPhase.done s.clientsBuilt) with
        cache := some s.clientsBuilt
        clientsBuilt := s.clientsBuilt + 1 }

/-- Run a schedule (`false` steps task A, `true` steps task B). -/
def runSchedule (s : ClientCacheState) : List Bool → ClientCacheState
  | [] => s
  | b :: rest => runSchedule (stepTask s b) rest

/-- The racing interleaving: both tasks pass the empty-cache check
before either stores a client. -/
def raceSchedule : List Bool := [false, true, false, true]

/-- The sequential interleaving: task A completes before task B starts. -/
def sequentialSchedule : List Bool := [false, false, true]

/-- Concrete environment used by witnesses: the wallet hash is derived
from the signing address, the transport answer is a fixed token. -/
def envDemo : Env :=
  { walletSendHash := fun _ a => "hash:" ++ a
    transportSendResult := fun _ => "transport-result" }

/-- Membership in one conditional error chunk of `validateTransaction`. -/
lemma mem_ite_nil_singleton {c : Prop} [Decidable c] (a b : String) :
    a ∈ (if c then ([] : List String) else [b]) ↔ ¬c ∧ a = b := by
  split <;> simp_all

/-- C1: when impersonation mode is not `always` and the registry holds a
local account for `tx.from` (under the case-insensitive comparison of
the send path), `eth_sendTransaction` signs and broadcasts locally —
its outcome is the wallet-client hash, its trace is at most the lazy
chain-id lookup followed by the single wallet broadcast — and the
impersonation authority is never invoked. -/
theorem c1_local_sign_no_impersonation
    (opts : ProviderOptions) (accounts : List LocalAccount) (env : Env)
    (clientsCached : Bool) (tx : RawTx) (f : String) (account : LocalAccount)
    (viemTx : ViemTx)
    (hFrom : tx.«from» = some f)
    (hMode : opts.impersonate ≠ some ImpMode.always)
    (hAccount : findAccountForTx accounts f = some account)
    (hStrict : opts.doNotFillMissingFields = true → validateTransaction tx = [])
    (hNorm : toViemTransaction tx = Except.ok viemTx) :
    eth_sendTransaction opts accounts env clientsCached tx =
      (HandlerResult.ok (env.walletSendHash viemTx account.address),
       (if clientsCached then [] else [ExtCall.chainIdLookup]) ++
         [ExtCall.walletSend viemTx account.address]) ∧
    countImpersonations
      (eth_sendTransaction opts accounts env clientsCached tx).2 = 0 := by
  have hcond : ¬(opts.doNotFillMissingFields = true ∧ validateTransaction tx ≠ []) := by
    rintro ⟨h1, h2⟩
    exact h2 (hStrict h1)
  have hmain : eth_sendTransaction opts accounts env clientsCached tx =
      (HandlerResult.ok (env.walletSendHash viemTx account.address),
       (if clientsCached then [] else [ExtCall.chainIdLookup]) ++
         [ExtCall.walletSend viemTx account.address]) := by
    unfold eth_sendTransaction
    rw [if_neg hcond, hNorm]
    simp only [hFrom, Option.getD_some, hAccount, if_neg hMode]
  refine ⟨hmain, ?_⟩
  rw [hmain]
  cases clientsCached <;> simp [countImpersonations]

/-- C2: when no local account is used (mode `always`, or no registry
match) and `shouldImpersonate(tx.from)` holds, `eth_sendTransaction`
performs exactly one `impersonateAccount` call for `tx.from`, then
re-issues `eth_sendTransaction` to the underlying transport with the
original unmodified transaction, and returns the transport result. -/
theorem c2_impersonate_then_delegate
    (opts : ProviderOptions) (accounts : List LocalAccount) (env : Env)
    (clientsCached : Bool) (tx : RawTx) (f : String) (m : ImpMode)
    (viemTx : ViemTx)
    (hFrom : tx.«from» = some f)
    (hImp : opts.impersonate = some m)
    (hNoLocal : opts.impersonate = some ImpMode.always ∨
      findAccountForTx accounts f = none)
    (hShould : shouldImpersonate opts.impersonate accounts f = true)
    (hStrict : opts.doNotFillMissingFields = true → validateTransaction tx = [])
    (hNorm : toViemTransaction tx = Except.ok viemTx) :
    eth_sendTransaction opts accounts env clientsCached tx =
      (HandlerResult.ok (env.transportSendResult tx),
       (if clientsCached then [] else [ExtCall.chainIdLookup]) ++
         [ExtCall.impersonateAccount f, ExtCall.transportSendTransaction tx]) ∧
    countImpersonations
      (eth_sendTransaction opts accounts env clientsCached tx).2 = 1 := by
  have hcond : ¬(opts.doNotFillMissingFields = true ∧ validateTransaction tx ≠ []) := by
    rintro ⟨h1, h2⟩
    exact h2 (hStrict h1)
  have hbr : impersonationBranch opts.impersonate accounts env tx f =
      (HandlerResult.ok (env.transportSendResult tx),
       [ExtCall.impersonateAccount f, ExtCall.transportSendTransaction tx]) := by
    unfold impersonationBranch
    rw [hImp]
    rw [hImp] at hShould
    simp only [hShould, if_true]
  have hmain : eth_sendTransaction opts accounts env clientsCached tx =
      (HandlerResult.ok (env.transportSendResult tx),
       (if clientsCached then [] else [ExtCall.chainIdLookup]) ++
         [ExtCall.impersonateAccount f, ExtCall.transportSendTransaction tx]) := by
    unfold eth_sendTransaction
    rw [if_neg hcond, hNorm]
    rcases hNoLocal with hAlw | hNone
    · cases hfind : findAccountForTx accounts f with
      | none => simp only [hFrom, Option.getD_some, hfind, hbr]
      | some account =>
        simp only [hFrom, Option.getD_some, hfind, if_pos hAlw, hbr]
    · simp only [hFrom, Option.getD_some, hNone, hbr]
  refine ⟨hmain, ?_⟩
  rw [hmain]
  cases clientsCached <;> simp [countImpersonations]

/-- C3: when no local account is used and `shouldImpersonate(tx.from)`
is false (or impersonation is absent), `eth_sendTransaction` throws:
`Account not available, not even as impersonation` when impersonation is
configured, the distinct `Account not available` when it is not; the
trace makes no impersonation-authority call and never submits the
transaction (at most the lazy chain-id lookup occurs). -/
theorem c3_account_unavailable_distinct_errors
    (opts : ProviderOptions) (accounts : List LocalAccount) (env : Env)
    (clientsCached : Bool) (tx : RawTx) (f : String) (viemTx : ViemTx)
    (hFrom : tx.«from» = some f)
    (hNoLocal : opts.impersonate = some ImpMode.always ∨
      findAccountForTx accounts f = none)
    (hNoImp : shouldImpersonate opts.impersonate accounts f = false)
    (hStrict : opts.doNotFillMissingFields = true → validateTransaction tx = [])
    (hNorm : toViemTransaction tx = Except.ok viemTx) :
    eth_sendTransaction opts accounts env clientsCached tx =
      (HandlerResult.error
        (if opts.impersonate.isSome then
          "Account not available, not even as impersonation"
        else "Account not available"),
       if clientsCached then [] else [ExtCall.chainIdLookup]) ∧
    countImpersonations
      (eth_sendTransaction opts accounts env clientsCached tx).2 = 0 ∧
    countTransactionSubmissions
      (eth_sendTransaction opts accounts env clientsCached tx).2 = 0 ∧
    ("Account not available, not even as impersonation" : String) ≠
      "Account not available" := by
  have hcond : ¬(opts.doNotFillMissingFields = true ∧ validateTransaction tx ≠ []) := by
    rintro ⟨h1, h2⟩
    exact h2 (hStrict h1)
  have hNone : findAccountForTx accounts f = none := by
    rcases hNoLocal with hAlw | hNone
    · rw [hAlw] at hNoImp
      simp [shouldImpersonate] at hNoImp
    · exact hNone
  have hbr : impersonationBranch opts.impersonate accounts env tx f =
      (HandlerResult.error
        (if opts.impersonate.isSome then
          "Account not available, not even as impersonation"
        else "Account not available"), []) := by
    unfold impersonationBranch
    cases himp : opts.impersonate with
    | none => simp
    | some m =>
      rw [himp] at hNoImp
      simp only [hNoImp, Bool.false_eq_true, if_false, Option.isSome_some, if_true]
  have hmain : eth_sendTransaction opts accounts env clientsCached tx =
      (HandlerResult.error
        (if opts.impersonate.isSome then
          "Account not available, not even as impersonation"
        else "Account not available"),
       if clientsCached then [] else [ExtCall.chainIdLookup]) := by
    unfold eth_sendTransaction
    rw [if_neg hcond, hNorm]
    simp only [hFrom, Option.getD_some, hNone, hbr, List.append_nil]
  refine ⟨hmain, ?_, ?_, by decide⟩ <;> rw [hmain] <;>
    cases clientsCached <;> simp [countImpersonations, countTransactionSubmissions]

/-- Legacy transaction from a registered sender, differing from the
registry entry only in hex-letter case. -/
def txC1 : RawTx := { «from» := some "0xAb12" }

/-- Normalization of `txC1` (legacy default, access-list shape). -/
def viemC1 : ViemTx := { type := TxFormat.eip2930 }

/-- Registry holding the single account `0xAB12`. -/
def accountsC1 : List LocalAccount := [{ address := "0xAB12" }]

/-- C1 witness: with no impersonation configured and a (case-varied)
registry match, the handler broadcasts locally and the trace holds no
impersonation call. -/
theorem c1_witness :
    eth_sendTransaction {} accountsC1 envDemo true txC1 =
      (HandlerResult.ok "hash:0xAB12", [ExtCall.walletSend viemC1 "0xAB12"]) ∧
    countImpersonations (eth_sendTransaction {} accountsC1 envDemo true txC1).2 = 0 := by
  have h := c1_local_sign_no_impersonation {} accountsC1 envDemo true txC1
      "0xAb12" { address := "0xAB12" } viemC1 rfl (by decide) (by decide)
      (by decide) rfl
  exact ⟨h.1.trans (by decide), h.2⟩

/-- Transaction whose sender is unknown to the registry. -/
def txC2 : RawTx := { «from» := some "0xCd34" }

/-- C2 witness: mode `unknown`, empty registry, first-time call — the
chain-id lookup, then exactly one impersonation, then the re-issued
original request. -/
theorem c2_witness :
    eth_sendTransaction { impersonate := some ImpMode.unknown } [] envDemo false txC2 =
      (HandlerResult.ok "transport-result",
       [ExtCall.chainIdLookup, ExtCall.impersonateAccount "0xCd34",
        ExtCall.transportSendTransaction txC2]) ∧
    countImpersonations
      (eth_sendTransaction { impersonate := some ImpMode.unknown } [] envDemo false txC2).2 = 1 := by
  have h := c2_impersonate_then_delegate { impersonate := some ImpMode.unknown }
      [] envDemo false txC2 "0xCd34" ImpMode.unknown viemC1 rfl rfl
      (Or.inr (by decide)) (by decide) (by decide) rfl
  exact ⟨h.1.trans (by decide), h.2⟩

/-- Transaction from a sender outside the impersonation allow-list. -/
def txC3 : RawTx := { «from» := some "0xFf66" }

/-- C3 witness: mode `list` with the sender absent from the list — the
ineligibility error, no authority call, no transaction submission. -/
theorem c3_witness :
    eth_sendTransaction { impersonate := some (ImpMode.list ["0xEe55"]) }
        [] envDemo true txC3 =
      (HandlerResult.error "Account not available, not even as impersonation", []) ∧
    countImpersonations
      (eth_sendTransaction { impersonate := some (ImpMode.list ["0xEe55"]) }
        [] envDemo true txC3).2 = 0 ∧
    countTransactionSubmissions
      (eth_sendTransaction { impersonate := some (ImpMode.list ["0xEe55"]) }
        [] envDemo true txC3).2 = 0 := by
  have h := c3_account_unavailable_distinct_errors
      { impersonate := some (ImpMode.list ["0xEe55"]) } [] envDemo true txC3
      "0xFf66" viemC1 rfl (Or.inr (by decide)) (by decide) (by decide) rfl
  exact ⟨h.1.trans (by decide), h.2.1, h.2.2.1⟩

/-- In the `src/src/index.ts` normalizer, a present `type` tag other
than `0x0`, `0x1`, `0x2` (any nonempty hex string, per the wire-format
field domain) makes normalization fail with the unsupported-type error. -/
theorem toViemTransaction_unsupported_type (tx : RawTx) (t : String)
    (hType : tx.type = some t) (hNe : t ≠ "")
    (h0 : t ≠ "0x0") (h1 : t ≠ "0x1") (h2 : t ≠ "0x2") :
    toViemTransaction tx = Except.error ("tx type " ++ t ++ " not implemented") := by
  unfold toViemTransaction
  rw [hType]
  have hc1 : ¬(some t = some "0x1") := by simp [h1]
  have hc2 : ¬(some t = some "0x2") := by simp [h2]
  have hc3 : ¬(truthy (some t) = false ∨ some t = some "0x0") := by
    simp [truthy, hNe, h0]
  rw [if_neg hc1, if_neg hc2, if_neg hc3]
  simp

/-- Unsupported-type request with legacy fee fields attached. -/
def txC4 : RawTx := { type := some "0x9", gas := some "0x1", gasPrice := some "0x5" }

/-- C4 (refuting evaluation): the two cited normalizers disagree on an
unsupported `type`.  `toViemTransaction` (index.ts) rejects `0x9` with
the unsupported-type error, but `parseTxParams` (part_000) falls into
its trailing `else` and silently produces a normalized transaction of
the legacy format — `parseTxParams` is total, so that variant has no
failure path at all — mapping `gasPrice` as if the request were legacy. -/
theorem c4_part000_silent_legacy_fallback :
    toViemTransaction txC4 = Except.error "tx type 0x9 not implemented" ∧
    parseTxParams txC4 =
      { type := TxFormat.legacy, gas := some 1, gasPrice := some 5 } := by
  exact ⟨rfl, by decide⟩

/-- C5: with strict mode enabled and at least one mandatory field
missing, `eth_sendTransaction` fails before any external call with a
message joining the complete `errors` list, and that list names a field
exactly when the field is missing: `from`, `gas`, `nonce` always
checked, both max-fee fields for type `0x2`, `gasPrice` otherwise. -/
theorem c5_strict_mode_names_all_missing
    (opts : ProviderOptions) (accounts : List LocalAccount) (env : Env)
    (clientsCached : Bool) (tx : RawTx)
    (hStrict : opts.doNotFillMissingFields = true)
    (hMissing : validateTransaction tx ≠ []) :
    eth_sendTransaction opts accounts env clientsCached tx =
      (HandlerResult.error
        ("Missing mandatory fields: " ++ joinComma (validateTransaction tx)), []) ∧
    ("from" ∈ validateTransaction tx ↔ truthy tx.«from» = false) ∧
    ("gas" ∈ validateTransaction tx ↔ truthy tx.gas = false) ∧
    ("nonce" ∈ validateTransaction tx ↔ truthy tx.nonce = false) ∧
    (tx.type = some "0x2" →
      ("maxFeePerGas" ∈ validateTransaction tx ↔ tx.maxFeePerGas = none) ∧
      ("maxPriorityFeePerGas" ∈ validateTransaction tx ↔
        tx.maxPriorityFeePerGas = none)) ∧
    (tx.type ≠ some "0x2" →
      ("gasPrice" ∈ validateTransaction tx ↔ tx.gasPrice = none)) := by
  refine ⟨?_, ?_, ?_, ?_, ?_, ?_⟩
  · unfold eth_sendTransaction
    rw [if_pos ⟨hStrict, hMissing⟩]
  · unfold validateTransaction
    by_cases ht : tx.type = some "0x2" <;>
      simp [ht, mem_ite_nil_singleton, List.mem_append]
  · unfold validateTransaction
    by_cases ht : tx.type = some "0x2" <;>
      simp [ht, mem_ite_nil_singleton, List.mem_append]
  · unfold validateTransaction
    by_cases ht : tx.type = some "0x2" <;>
      simp [ht, mem_ite_nil_singleton, List.mem_append]
  · intro ht
    unfold validateTransaction
    constructor <;> simp [ht, mem_ite_nil_singleton, List.mem_append]
  · intro ht
    unfold validateTransaction
    simp [if_neg ht, mem_ite_nil_singleton, List.mem_append]

/-- Strict-mode legacy request missing both `nonce` and `gasPrice`. -/
def txC5 : RawTx := { «from» := some "0xaa", gas := some "0x5208" }

/-- C5 witness: the failure message for `txC5` names both missing
fields. -/
theorem c5_witness :
    eth_sendTransaction { doNotFillMissingFields := true } [] envDemo true txC5 =
      (HandlerResult.error "Missing mandatory fields: nonce, gasPrice", []) ∧
    "nonce" ∈ validateTransaction txC5 ∧
    "gasPrice" ∈ validateTransaction txC5 := by
  have h := c5_strict_mode_names_all_missing { doNotFillMissingFields := true }
      [] envDemo true txC5 rfl (by decide)
  exact ⟨h.1.trans (by decide), by decide, by decide⟩

/-- C6 (refuting evaluation): address comparison is NOT case-insensitive
at every site.  With the registry holding `0xAB12`, the lookup used by
`personal_sign` / `eth_sign` / `eth_signTypedData` misses the
case-varied `0xab12` (so those handlers throw), while the
`eth_sendTransaction` lookup finds it; and mode-`list` membership
(`list.includes`) misses a case-varied list entry, so
`shouldImpersonate` is false where case-insensitive comparison would
make it true. -/
theorem c6_case_sensitivity_divergence :
    findAccountForSigning [{ address := "0xAB12" }] "0xab12" = none ∧
    findAccountForTx [{ address := "0xAB12" }] "0xab12" =
      some { address := "0xAB12" } ∧
    shouldImpersonate (some (ImpMode.list ["0xAB12"])) [] "0xab12" = false ∧
    toLowerCase "0xAB12" = toLowerCase "0xab12" := by
  decide

/-- Legacy transaction carrying a nonzero `value`. -/
def txC7 : RawTx :=
  { «from» := some "0xaa", «to» := some "0xbb", gas := some "0x5208",
    nonce := some "0x1", value := some "0x2a" }

/-- Normalization of `txC7` by the `src/src/index.ts` normalizer. -/
def viemC7 : ViemTx :=
  { type := TxFormat.eip2930, «to» := some "0xbb", nonce := some 1,
    gas := some 21000, value := some 42 }

/-- C7 (refuting evaluation): the `part_000` normalizer drops `value`.
`txC7` carries the truthy `value` hex string `0x2a`, the
`src/src/index.ts` normalizer decodes it to 42, yet `parseTxParams` —
whose output is exactly what that variant's `eth_sendTransaction` signs
(line 95) — leaves `value` unset. -/
theorem c7_value_dropped_by_part000 :
    truthy txC7.value = true ∧
    (parseTxParams txC7).value = none ∧
    toViemTransaction txC7 = Except.ok viemC7 ∧
    viemC7.value = some (hexToNat "0x2a") ∧
    hexToNat "0x2a" = 42 := by
  refine ⟨by decide, by decide, rfl, by decide, by decide⟩

/-- C8 (refuting evaluation): `getClients()` is check-then-act with an
await between the cache check and the cache write, so the interleaving
in which both first-time callers pass the check before either stores a
client performs two chain-id lookups and constructs two distinct
clients (the callers do not converge); only the sequential interleaving
gives the single-flight behaviour the claim asserts. -/
theorem c8_cache_race_builds_two_clients :
    (runSchedule initialCacheState raceSchedule).chainIdCalls = 2 ∧
    (runSchedule initialCacheState raceSchedule).clientsBuilt = 2 ∧
    (runSchedule initialCacheState raceSchedule).taskA = ClientPhase.done 0 ∧
    (runSchedule initialCacheState raceSchedule).taskB = ClientPhase.done 1 ∧
    (runSchedule initialCacheState sequentialSchedule).chainIdCalls = 1 ∧
    (runSchedule initialCacheState sequentialSchedule).clientsBuilt = 1 ∧
    (runSchedule initialCacheState sequentialSchedule).taskA = ClientPhase.done 0 ∧
    (runSchedule initialCacheState sequentialSchedule).taskB = ClientPhase.done 0 := by
  decide

/-- C9: layered resolution order of the assembled tables.  In the
`part_000` merge the built-in account handlers are never shadowed by the
pending-nonce fix (so any method claimed by both dispatches to the
built-in), and in the `index.ts` merge a caller-supplied override wins
over any built-in for the same method name. -/
theorem c9_layered_resolution_order
    (overrides : String → Option HTag) (m : String) (hB hO : HTag)
    (hBuiltin : accountHandlerTable m = some hB) :
    dispatch (handlersPart000 true) m = DispatchAction.runHandler hB ∧
    (overrides m = some hO →
      dispatch (handlersIndex overrides) m = DispatchAction.runHandler hO) := by
  constructor
  · unfold dispatch handlersPart000 spreadMerge
    rw [hBuiltin]
  · intro hov
    unfold dispatch handlersIndex spreadMerge
    rw [hov]

/-- Caller override table claiming `eth_accounts`. -/
def overridesC9 : String → Option HTag :=
  fun m => if m = "eth_accounts" then some (HTag.override "eth_accounts") else none

/-- C9 witness: `eth_accounts` dispatches to the built-in in the
fix-then-builtins merge and to the override in the
builtins-then-overrides merge. -/
theorem c9_witness :
    dispatch (handlersPart000 true) "eth_accounts" =
      DispatchAction.runHandler (HTag.builtin "eth_accounts") ∧
    dispatch (handlersIndex overridesC9) "eth_accounts" =
      DispatchAction.runHandler (HTag.override "eth_accounts") := by
  have h := c9_layered_resolution_order overridesC9 "eth_accounts"
      (HTag.builtin "eth_accounts") (HTag.override "eth_accounts") (by decide)
  exact ⟨h.1, h.2 (by decide)⟩

/-- C10: an explicit `numAccounts` of 0 is falsy under `|| 10`, so the
mnemonic registry derives the same 10 accounts (indices 0..9) as when
`numAccounts` is omitted, and `eth_accounts` reports 10 addresses. -/
theorem c10_numAccounts_zero_means_default
    (derive : String → Nat → LocalAccount) (mnemonic : String) :
    deriveMnemonicAccounts derive mnemonic (some 0) =
      deriveMnemonicAccounts derive mnemonic none ∧
    eth_accounts (deriveMnemonicAccounts derive mnemonic (some 0)) =
      (List.range 10).map (fun i => (derive mnemonic i).address) := by
  constructor
  · rfl
  · simp [eth_accounts, deriveMnemonicAccounts, numDerived]

/-- Concrete stand-in for the external HD-derivation primitive. -/
def deriveDemo : String → Nat → LocalAccount :=
  fun m i => { address := m ++ toString i }

/-- C10 witness: with a concrete derivation function, `numAccounts := 0`
and the omitted default produce the same 10 addresses. -/
theorem c10_witness :
    deriveMnemonicAccounts deriveDemo "seed" (some 0) =
      deriveMnemonicAccounts deriveDemo "seed" none ∧
    eth_accounts (deriveMnemonicAccounts deriveDemo "seed" (some 0)) =
      (List.range 10).map (fun i => (deriveDemo "seed" i).address) :=
  c10_numAccounts_zero_means_default deriveDemo "seed"

end EIP1193Accounts
